import Mathlib

/-!
Shallow embedding of `src/logic/neteasy.go` (package `logic`) of the GoMusic
repository: the NetEase playlist resolution pipeline `NetEasyDiscover` and its
batch song resolver `batchGetSongs`.

Modelling conventions:
* External collaborators — the link parser `utils.GetSongsId`, the HTTP
  transport plus JSON deserialization of the two remote endpoints, and the
  external title normalizer `utils.StandardSongName` — are components of an
  environment record `Env`.
* The Redis-backed cache store is a `CacheState`; `cache.MGet` and the
  materialization helper `utils.SyncMapToSortedSlice` live in repository
  packages that are not part of `src/`, so they are modelled from the spec
  (see their doc comments).
* Mutation of `sync.Map` values is rendered as explicit state passing.  The
  concurrent chunk tasks of `batchGetSongs` (launched with `errgroup.Go`,
  joined by `errgroup.Wait`) are rendered as a fold over the chunk list:
  results are keyed by song identifier, chunk completion order is immaterial,
  and `Wait` surfaces an error exactly when some task failed.  `batchGetSongs`
  receives the caller's result map as a by-value `sync.Map` parameter
  (line 102) and returns only `missKeyCacheMap`; a copied `sync.Map` shares
  its lazily allocated internal map with the original exactly when some
  `Store` preceded the copy, so the callee's mutations reach the caller's map
  only when the hit/miss loop seeded it (see `hitSeeded`, `discoverCore`).
* `DiscoverOut` additionally exposes, as observations of the run, the remote
  song-metadata requests issued (one entry per chunk POST to the v3 endpoint),
  the bulk cache-write calls made (`cache.MSet`), and the final
  identifier-to-display-string map.
-/

namespace GoMusic

/-- Mirrors the constant `chunkSize = 500` of `src/logic/neteasy.go`. -/
def chunkSize : Nat := 500

/-- Mirrors `fmt.Sprintf(netEasyRedis, id)` with `netEasyRedis = "net:%v"`:
the cache key derived from a track identifier. -/
def netEasyRedisKey (id : Nat) : String := "net:" ++ toString id

/-- Mirrors `models.SongId` (field `Id`), the track identifier element of the
playlist's `TrackIds` and of the miss list. -/
structure SongId where
  id : Nat
deriving Repr, DecidableEq

/-- Mirrors the `Playlist` part of `models.NetEasySongId`: display name,
ordered track identifiers, declared track count. -/
structure NetEasyPlaylist where
  name : String
  trackIds : List SongId
  trackCount : Nat
deriving Repr, DecidableEq

/-- Mirrors `models.NetEasySongId`: the deserialized playlist-detail response
body, with its body status `Code` and the playlist payload. -/
structure NetEasySongId where
  code : Nat
  playlist : NetEasyPlaylist
deriving Repr, DecidableEq

/-- Mirrors an artist entry of a song record (`v.Ar` elements, field `Name`). -/
structure Artist where
  name : String
deriving Repr, DecidableEq

/-- Mirrors a song record of the v3 song-detail response: raw title `Name`,
identifier `Id`, ordered artist list `Ar`. -/
structure Song where
  name : String
  id : Nat
  ar : List Artist
deriving Repr, DecidableEq

/-- Mirrors `models.Songs`: the deserialized song-detail response body. -/
structure Songs where
  songs : List Song
deriving Repr, DecidableEq

/-- Mirrors `models.SongList`: the value returned by `NetEasyDiscover`. -/
structure SongList where
  name : String
  songs : List String
  songsCount : Nat
deriving Repr, DecidableEq

/-- Error taxonomy of the pipeline: the error propagated from `GetSongsId`,
a transport failure of `httputil.Post`, a `json.Unmarshal` failure, and the
dedicated error built for body status 401
(`errors.New("抱歉，您无权限访问该歌单")`). -/
inductive NErr where
  | linkErr (msg : String)
  | transportErr (msg : String)
  | parseErr (msg : String)
  | accessDenied
deriving Repr, DecidableEq

/-- Outcome of one remote round trip: `httputil.Post` failing, the response
body failing to unmarshal, or a successfully deserialized value. -/
inductive FetchResult (α : Type) where
  | transportErr (msg : String)
  | parseErr (msg : String)
  | ok (v : α)
deriving Repr, DecidableEq

/-- True exactly when the round trip produced a deserialized value. -/
def FetchResult.isOk {α : Type} : FetchResult α → Bool
  | .ok _ => true
  | _ => false

/-- The external collaborators of `NetEasyDiscover`, as oracles. -/
structure Env where
  getSongsId : String → Except String String
  playlistFetch : String → FetchResult NetEasySongId
  songsFetch : List SongId → FetchResult Songs
  standardSongName : String → String

/-- State of the external cache store: whether the bulk read fails, and the
key-value content (`none` is a miss, mirroring absence in Redis `MGET`). -/
structure CacheState where
  failed : Bool
  store : String → Option String

/-- Modelled from the spec: `cache.MGet` (package `repo/cache`, not under
`src/`).  Spec §6: `bulkGet(keys) → values-or-absent, best-effort`; §4.1 step 4
and §7: on bulk-lookup failure every key is treated as a miss, so the caller
receives an absent value for every requested key.  The returned slice is
positionally aligned with the requested keys. -/
def cacheMGet (st : CacheState) (keys : List String) : List (Option String) :=
  keys.map (fun k => if st.failed then none else st.store k)

/-- The value `cache.MGet` yields for the key derived from one identifier. -/
def mgetVal (st : CacheState) (id : Nat) : Option String :=
  if st.failed then none else st.store (netEasyRedisKey id)

/-- The zero `sync.Map{}` as an identifier-keyed functional map. -/
def emptySyncMap : Nat → Option String := fun _ => none

/-- One `resultMap.Store(k, v)` step on the functional map. -/
def syncMapStore (m : Nat → Option String) (k : Nat) (v : String) :
    Nat → Option String :=
  fun q => if q = k then some v else m q

/-- Mirrors the hit/miss loop of `NetEasyDiscover` (lines 65–73): walk the
cache results positionally aligned with `trackIds`; a present value is stored
into `resultMap` under the track's identifier, an absent one appends the
identifier to `missKey`. -/
def splitCacheHits : List (SongId × Option String) → (Nat → Option String) →
    List SongId → (Nat → Option String) × List SongId
  | [], resultMap, missKey => (resultMap, missKey)
  | (t, some v) :: rest, resultMap, missKey =>
      splitCacheHits rest (syncMapStore resultMap t.id v) missKey
  | (t, none) :: rest, resultMap, missKey =>
      splitCacheHits rest resultMap (missKey ++ [t])

/-- The track identifiers paired positionally with their bulk cache-read
values (lines 57–63: key derivation plus `cache.MGet`). -/
def cachePairs (cache : CacheState) (trackIds : List SongId) :
    List (SongId × Option String) :=
  trackIds.zip (cacheMGet cache (trackIds.map (fun v => netEasyRedisKey v.id)))

/-- The `resultMap` contents right after the hit/miss loop. -/
def hitMap (cache : CacheState) (trackIds : List SongId) : Nat → Option String :=
  (splitCacheHits (cachePairs cache trackIds) emptySyncMap []).1

/-- The `missKey` slice right after the hit/miss loop. -/
def missKeys (cache : CacheState) (trackIds : List SongId) : List SongId :=
  (splitCacheHits (cachePairs cache trackIds) emptySyncMap []).2

/-- True exactly when the hit/miss loop (lines 67–73) executed at least one
`resultMap.Store`, i.e. the bulk cache read returned a present value for
some position.  A zero `sync.Map` allocates its internal map on the first
`Store`; a by-value copy of the struct taken afterwards shares that
allocation with the original, while a copy of a never-stored zero `sync.Map`
shares nothing, so later stores into the copy are invisible to the
original. -/
def hitSeeded (cache : CacheState) (trackIds : List SongId) : Bool :=
  (cachePairs cache trackIds).any (fun p => p.2.isSome)

/-- Modelled from the spec: `utils.SyncMapToSortedSlice` (package
`common/utils`, not under `src/`).  Spec §4.1 step 9: materialize the result
by walking the original track-identifier order, emitting the mapped display
string for each identifier present in the shared map and skipping identifiers
absent from the map. -/
def syncMapToSortedSlice (trackIds : List SongId) (m : Nat → Option String) :
    List String :=
  trackIds.filterMap (fun t => m t.id)

/-- Mirrors the display-string construction of `batchGetSongs` (lines
134–147): `StandardSongName(v.Name)`, then `" - "`, then the artist names
joined by `" / "` (`strings.Join(authors, " / ")`). -/
def displayString (env : Env) (s : Song) : String :=
  env.standardSongName s.name ++ " - " ++
    String.intercalate " / " (s.ar.map Artist.name)

/-- Mirrors the per-record loop of a chunk task (lines 135–150): each returned
song record stores its cache entry into `missKeyCacheMap` (insertion order
kept as a list of key-value pairs) and its display string into `resultMap`. -/
def storeSongs (env : Env) : List Song → List (String × String) →
    (Nat → Option String) → List (String × String) × (Nat → Option String)
  | [], missKeyCacheMap, resultMap => (missKeyCacheMap, resultMap)
  | s :: rest, missKeyCacheMap, resultMap =>
      storeSongs env rest
        (missKeyCacheMap ++ [(netEasyRedisKey s.id, displayString env s)])
        (syncMapStore resultMap s.id (displayString env s))

/-- Mirrors the chunk tasks plus `errgroup.Wait` (lines 116–158) as a fold
over the chunk list: each chunk posts to the v3 endpoint; a transport or
unmarshal failure makes the whole batch fail, a success stores every returned
record.  Results are keyed by identifier, so the sequential order stands in
for any concurrent completion order. -/
def runChunks (env : Env) : List (List SongId) → List (String × String) →
    (Nat → Option String) →
    Except NErr (List (String × String) × (Nat → Option String))
  | [], missKeyCacheMap, resultMap => .ok (missKeyCacheMap, resultMap)
  | chunk :: rest, missKeyCacheMap, resultMap =>
      match env.songsFetch chunk with
      | .transportErr e => .error (.transportErr e)
      | .parseErr e => .error (.parseErr e)
      | .ok ss =>
          runChunks env rest
            (storeSongs env ss.songs missKeyCacheMap resultMap).1
            (storeSongs env ss.songs missKeyCacheMap resultMap).2

/-- Mirrors the chunking loop of `batchGetSongs` (lines 109–115):
`for i := 0; i < missSize; i += chunkSize` slices `missKey[i:end]` with
`end = min(i+chunkSize, missSize)`.  The loop runs at most `missKey.length`
iterations, which bounds the structural fuel. -/
def mkChunksAux : Nat → List SongId → List (List SongId)
  | 0, _ => []
  | _, [] => []
  | fuel + 1, x :: xs =>
      (x :: xs).take chunkSize :: mkChunksAux fuel ((x :: xs).drop chunkSize)

/-- The chunk list `batchGetSongs` builds from the miss list. -/
def mkChunks (missKey : List SongId) : List (List SongId) :=
  mkChunksAux missKey.length missKey

/-- The expected chunk sizes for a miss list of a given length. -/
def chunkSizesAux : Nat → Nat → List Nat
  | 0, _ => []
  | _, 0 => []
  | fuel + 1, n + 1 =>
      min chunkSize (n + 1) :: chunkSizesAux fuel (n + 1 - chunkSize)

/-- The sizes of the consecutive chunks cut from a list of length `n`. -/
def chunkSizes (n : Nat) : List Nat := chunkSizesAux n n

/-- Concatenation of a list of lists. -/
def listConcat {α : Type} (ls : List (List α)) : List α :=
  ls.foldr (fun a b => a ++ b) []

/-- Mirrors `batchGetSongs` (lines 102–159): chunk the miss list, run every
chunk task, and on full success return the accumulated `missKeyCacheMap`
(cache write-back payload).  The Go function receives the caller's
`resultMap` as a by-value `sync.Map` parameter and returns only
`missKeyCacheMap`; its chunk goroutines mutate the received copy.  The model
makes that side effect explicit: the second component of the success value
is the final contents of the callee's copy, which the caller observes only
when its own map already shares the copy's internal storage — `discoverCore`
merges it back exactly under `hitSeeded`.  On any task error,
`errgroup.Wait` propagates it and the map is discarded. -/
def batchGetSongs (env : Env) (missKey : List SongId)
    (resultMap : Nat → Option String) :
    Except NErr (List (String × String) × (Nat → Option String)) :=
  runChunks env (mkChunks missKey) [] resultMap

/-- Observable outcome of one `NetEasyDiscover` run: the returned value or
error, the song-metadata chunk requests issued (identifier payload per POST),
the `cache.MSet` calls made (entry list per call), and the final contents of
the shared `resultMap`. -/
structure DiscoverOut where
  result : Except NErr SongList
  songRequests : List (List Nat)
  cacheWrites : List (List (String × String))
  finalMap : Nat → Option String

/-- Mirrors `NetEasyDiscover` from the bulk cache read onward (lines 56–98):
derive keys, bulk-read the cache, split hits and misses, return directly when
every identifier hit, otherwise run `batchGetSongs`, write the newly resolved
entries back with `cache.MSet` (its error discarded), and materialize the
ordered song list.  The materialization at line 96 walks the caller's own
`resultMap`: because `batchGetSongs` takes that `sync.Map` by value, the
chunk goroutines' stores reach the caller's map only when the hit/miss loop
already seeded it (at least one `Store` allocated the internal map which the
copy then shares, `hitSeeded`); with zero hits the caller's map stays empty
and the freshly fetched entries are lost to the result, although they still
reach the cache write-back.  Every chunk task posts its request even when a
sibling fails, and the error path performs no cache write. -/
def discoverCore (env : Env) (cache : CacheState) (resp : NetEasySongId) :
    DiscoverOut :=
  if (missKeys cache resp.playlist.trackIds).length = 0 then
    { result := .ok
        { name := resp.playlist.name
          songs := syncMapToSortedSlice resp.playlist.trackIds
            (hitMap cache resp.playlist.trackIds)
          songsCount := resp.playlist.trackCount }
      songRequests := []
      cacheWrites := []
      finalMap := hitMap cache resp.playlist.trackIds }
  else
    match batchGetSongs env (missKeys cache resp.playlist.trackIds)
        (hitMap cache resp.playlist.trackIds) with
    | .error e =>
        { result := .error e
          songRequests := (mkChunks (missKeys cache resp.playlist.trackIds)).map
            (fun c => c.map SongId.id)
          cacheWrites := []
          finalMap := emptySyncMap }
    | .ok (missKeyCacheMap, calleeMap) =>
        { result := .ok
            { name := resp.playlist.name
              songs := syncMapToSortedSlice resp.playlist.trackIds
                (if hitSeeded cache resp.playlist.trackIds then calleeMap
                 else hitMap cache resp.playlist.trackIds)
              songsCount := resp.playlist.trackCount }
          songRequests := (mkChunks (missKeys cache resp.playlist.trackIds)).map
            (fun c => c.map SongId.id)
          cacheWrites := [missKeyCacheMap]
          finalMap := if hitSeeded cache resp.playlist.trackIds then calleeMap
            else hitMap cache resp.playlist.trackIds }

/-- Mirrors `NetEasyDiscover` (lines 28–99): extract the playlist identifier,
fetch and deserialize the playlist detail, reject body status 401 with the
dedicated access-denied error, then run the cache-aside core. -/
def NetEasyDiscover (env : Env) (cache : CacheState) (link : String) :
    DiscoverOut :=
  match env.getSongsId link with
  | .error e =>
      { result := .error (.linkErr e), songRequests := [], cacheWrites := []
        finalMap := emptySyncMap }
  | .ok songListId =>
      match env.playlistFetch songListId with
      | .transportErr e =>
          { result := .error (.transportErr e), songRequests := []
            cacheWrites := [], finalMap := emptySyncMap }
      | .parseErr e =>
          { result := .error (.parseErr e), songRequests := []
            cacheWrites := [], finalMap := emptySyncMap }
      | .ok resp =>
          if resp.code = 401 then
            { result := .error .accessDenied, songRequests := []
              cacheWrites := [], finalMap := emptySyncMap }
          else discoverCore env cache resp

/-! Helper lemmas about the list combinators of the embedding. -/

theorem zip_self_map (g : SongId → Option String) :
    ∀ l : List SongId, l.zip (l.map g) = l.map (fun t => (t, g t))
  | [] => rfl
  | t :: rest => by
      simp only [List.map_cons, List.zip_cons_cons]
      rw [zip_self_map g rest]

theorem listConcat_nil {α : Type} : listConcat ([] : List (List α)) = [] := rfl

theorem listConcat_cons {α : Type} (l : List α) (ls : List (List α)) :
    listConcat (l :: ls) = l ++ listConcat ls := rfl

theorem listConcat_map_map {α β : Type} (f : α → β) :
    ∀ ls : List (List α),
      listConcat (ls.map (fun l => l.map f)) = (listConcat ls).map f
  | [] => rfl
  | l :: ls => by
      simp only [List.map_cons, listConcat_cons, List.map_append]
      rw [listConcat_map_map f ls]

/-! Characterization of the hit/miss split. -/

theorem cachePairs_eq (cache : CacheState) (trackIds : List SongId) :
    cachePairs cache trackIds =
      trackIds.map (fun t => (t, mgetVal cache t.id)) := by
  unfold cachePairs cacheMGet
  rw [List.map_map]
  exact zip_self_map (fun t => mgetVal cache t.id) trackIds

theorem splitCacheHits_snd (g : SongId → Option String) :
    ∀ (tids : List SongId) (m0 : Nat → Option String) (k0 : List SongId),
      (splitCacheHits (tids.map (fun t => (t, g t))) m0 k0).2 =
        k0 ++ tids.filter (fun t => (g t).isNone) := by
  intro tids
  induction tids with
  | nil => intro m0 k0; simp [splitCacheHits]
  | cons t rest ih =>
      intro m0 k0
      cases hg : g t with
      | none =>
          simp only [List.map_cons, hg, splitCacheHits]
          rw [ih]
          simp [List.filter_cons, hg]
      | some v =>
          simp only [List.map_cons, hg, splitCacheHits]
          rw [ih]
          simp [List.filter_cons, hg]

theorem splitCacheHits_fst_inv (f : Nat → Option String) :
    ∀ (tids : List SongId) (m0 : Nat → Option String) (k0 : List SongId)
      (q : Nat), m0 q = f q →
      (splitCacheHits (tids.map (fun t => (t, f t.id))) m0 k0).1 q = f q := by
  intro tids
  induction tids with
  | nil => intro m0 k0 q hm; simpa [splitCacheHits] using hm
  | cons t rest ih =>
      intro m0 k0 q hm
      cases hf : f t.id with
      | none =>
          simp only [List.map_cons, hf, splitCacheHits]
          exact ih m0 (k0 ++ [t]) q hm
      | some v =>
          simp only [List.map_cons, hf, splitCacheHits]
          apply ih
          unfold syncMapStore
          by_cases hq : q = t.id
          · subst hq; simp [hf]
          · simp [hq, hm]

theorem splitCacheHits_fst_mem (f : Nat → Option String) :
    ∀ (tids : List SongId) (m0 : Nat → Option String) (k0 : List SongId)
      (t : SongId), t ∈ tids → (f t.id).isSome →
      (splitCacheHits (tids.map (fun u => (u, f u.id))) m0 k0).1 t.id =
        f t.id := by
  intro tids
  induction tids with
  | nil => intro m0 k0 t ht; exact absurd ht (List.not_mem_nil t)
  | cons u rest ih =>
      intro m0 k0 t ht hsome
      rcases List.mem_cons.mp ht with hte | hmem
      · subst hte
        cases hf : f t.id with
        | none => rw [hf] at hsome; simp at hsome
        | some v =>
            simp only [List.map_cons, hf, splitCacheHits]
            rw [← hf]
            apply splitCacheHits_fst_inv
            simp [syncMapStore, hf]
      · cases hf : f u.id with
        | none =>
            simp only [List.map_cons, hf, splitCacheHits]
            exact ih _ _ t hmem hsome
        | some v =>
            simp only [List.map_cons, hf, splitCacheHits]
            exact ih _ _ t hmem hsome

theorem missKeys_eq_filter (cache : CacheState) (trackIds : List SongId) :
    missKeys cache trackIds =
      trackIds.filter (fun t => (mgetVal cache t.id).isNone) := by
  unfold missKeys
  rw [cachePairs_eq]
  exact splitCacheHits_snd (fun t => mgetVal cache t.id) trackIds emptySyncMap []

theorem hitMap_mem (cache : CacheState) (trackIds : List SongId) (t : SongId)
    (ht : t ∈ trackIds) (hsome : (mgetVal cache t.id).isSome) :
    hitMap cache trackIds t.id = mgetVal cache t.id := by
  unfold hitMap
  rw [cachePairs_eq]
  exact splitCacheHits_fst_mem (fun id => mgetVal cache id) trackIds
    emptySyncMap [] t ht hsome

theorem hitMap_none (cache : CacheState) (trackIds : List SongId) (q : Nat)
    (hq : mgetVal cache q = none) :
    hitMap cache trackIds q = none := by
  unfold hitMap
  rw [cachePairs_eq]
  have := splitCacheHits_fst_inv (fun id => mgetVal cache id) trackIds
    emptySyncMap [] q (by simp [emptySyncMap, hq])
  simpa [hq] using this

/-! Characterization of the chunking loop. -/

theorem mkChunksAux_concat :
    ∀ (fuel : Nat) (xs : List SongId), xs.length ≤ fuel →
      listConcat (mkChunksAux fuel xs) = xs := by
  intro fuel
  induction fuel with
  | zero =>
      intro xs hlen
      rw [Nat.le_zero, List.length_eq_zero] at hlen
      subst hlen; rfl
  | succ fuel ih =>
      intro xs hlen
      cases xs with
      | nil => rfl
      | cons x rest =>
          have hc : 1 ≤ chunkSize := by simp [chunkSize]
          simp only [mkChunksAux, listConcat_cons]
          rw [ih ((x :: rest).drop chunkSize)
            (by simp only [List.length_drop, List.length_cons]
                simp only [List.length_cons] at hlen
                omega)]
          exact List.take_append_drop chunkSize (x :: rest)

theorem mkChunks_concat (xs : List SongId) : listConcat (mkChunks xs) = xs :=
  mkChunksAux_concat xs.length xs (Nat.le_refl _)

theorem mkChunksAux_sizes :
    ∀ (fuel : Nat) (xs : List SongId), xs.length ≤ fuel →
      (mkChunksAux fuel xs).map List.length = chunkSizesAux fuel xs.length := by
  intro fuel
  induction fuel with
  | zero =>
      intro xs hlen
      rw [Nat.le_zero, List.length_eq_zero] at hlen
      subst hlen; rfl
  | succ fuel ih =>
      intro xs hlen
      cases xs with
      | nil => rfl
      | cons x rest =>
          have hc : 1 ≤ chunkSize := by simp [chunkSize]
          have hdl : ((x :: rest).drop chunkSize).length =
              rest.length + 1 - chunkSize := by
            simp [List.length_drop]
          simp only [mkChunksAux, List.map_cons, List.length_cons,
            chunkSizesAux]
          rw [List.length_take,
            ih ((x :: rest).drop chunkSize)
              (by rw [hdl]; simp only [List.length_cons] at hlen; omega),
            hdl]
          simp

theorem mkChunks_sizes (xs : List SongId) :
    (mkChunks xs).map List.length = chunkSizes xs.length :=
  mkChunksAux_sizes xs.length xs (Nat.le_refl _)

theorem chunkSizesAux_le :
    ∀ (fuel n m : Nat), m ∈ chunkSizesAux fuel n → m ≤ chunkSize := by
  intro fuel
  induction fuel with
  | zero => intro n m hm; simp [chunkSizesAux] at hm
  | succ fuel ih =>
      intro n m hm
      cases n with
      | zero => simp [chunkSizesAux] at hm
      | succ k =>
          simp only [chunkSizesAux, List.mem_cons] at hm
          rcases hm with hm | hm
          · subst hm; exact Nat.min_le_left _ _
          · exact ih _ m hm

theorem chunkSizesAux_length :
    ∀ (fuel n : Nat), n ≤ fuel →
      (chunkSizesAux fuel n).length = (n + (chunkSize - 1)) / chunkSize := by
  intro fuel
  induction fuel with
  | zero =>
      intro n hn
      rw [Nat.le_zero] at hn
      subst hn
      simp [chunkSizesAux, chunkSize]
  | succ fuel ih =>
      intro n hn
      cases n with
      | zero => simp [chunkSizesAux, chunkSize]
      | succ k =>
          have hc : 1 ≤ chunkSize := by simp [chunkSize]
          simp only [chunkSizesAux, List.length_cons]
          rw [ih (k + 1 - chunkSize) (by omega)]
          simp only [chunkSize]
          omega

theorem mkChunks_length (xs : List SongId) :
    (mkChunks xs).length = (xs.length + (chunkSize - 1)) / chunkSize := by
  have h := congrArg List.length (mkChunks_sizes xs)
  rw [List.length_map] at h
  rw [h]
  exact chunkSizesAux_length xs.length xs.length (Nat.le_refl _)

/-! Characterization of the per-record store loop and the chunk fold. -/

theorem storeSongs_fst (env : Env) :
    ∀ (ss : List Song) (cm : List (String × String))
      (rm : Nat → Option String),
      (storeSongs env ss cm rm).1 =
        cm ++ ss.map (fun s => (netEasyRedisKey s.id, displayString env s)) := by
  intro ss
  induction ss with
  | nil => intro cm rm; simp [storeSongs]
  | cons s rest ih =>
      intro cm rm
      simp only [storeSongs, List.map_cons]
      rw [ih]
      simp

theorem storeSongs_snd_notmem (env : Env) :
    ∀ (ss : List Song) (cm : List (String × String))
      (rm : Nat → Option String) (q : Nat), q ∉ ss.map Song.id →
      (storeSongs env ss cm rm).2 q = rm q := by
  intro ss
  induction ss with
  | nil => intro cm rm q _; rfl
  | cons s rest ih =>
      intro cm rm q hq
      simp only [List.map_cons, List.mem_cons, not_or] at hq
      simp only [storeSongs]
      rw [ih _ _ q hq.2]
      simp [syncMapStore, hq.1]

theorem runChunks_error (env : Env) :
    ∀ (chunks : List (List SongId)) (cm : List (String × String))
      (rm : Nat → Option String),
      (∃ c ∈ chunks, (env.songsFetch c).isOk = false) →
      ∃ e, runChunks env chunks cm rm = .error e := by
  intro chunks
  induction chunks with
  | nil => intro cm rm h; simp at h
  | cons c rest ih =>
      intro cm rm h
      cases hc : env.songsFetch c with
      | transportErr e => exact ⟨.transportErr e, by simp [runChunks, hc]⟩
      | parseErr e => exact ⟨.parseErr e, by simp [runChunks, hc]⟩
      | ok ss =>
          obtain ⟨c0, hc0, hbad⟩ := h
          rcases List.mem_cons.mp hc0 with hce | hmem
          · subst hce; rw [hc] at hbad; simp [FetchResult.isOk] at hbad
          · obtain ⟨e, he⟩ := ih _ _ ⟨c0, hmem, hbad⟩
            exact ⟨e, by simp only [runChunks, hc]; exact he⟩

theorem runChunks_ok_fst (env : Env) (songsOf : List SongId → Songs) :
    ∀ (chunks : List (List SongId)) (cm : List (String × String))
      (rm : Nat → Option String),
      (∀ c ∈ chunks, env.songsFetch c = .ok (songsOf c)) →
      ∃ rm2, runChunks env chunks cm rm = .ok
        (cm ++ listConcat (chunks.map (fun c => (songsOf c).songs.map
          (fun s => (netEasyRedisKey s.id, displayString env s)))), rm2) := by
  intro chunks
  induction chunks with
  | nil => intro cm rm _; exact ⟨rm, by simp [runChunks, listConcat_nil]⟩
  | cons c rest ih =>
      intro cm rm hall
      have hc : env.songsFetch c = .ok (songsOf c) := hall c (by simp)
      obtain ⟨rm2, hrest⟩ := ih (storeSongs env (songsOf c).songs cm rm).1
        (storeSongs env (songsOf c).songs cm rm).2
        (fun c2 hc2 => hall c2 (List.mem_cons_of_mem _ hc2))
      refine ⟨rm2, ?_⟩
      simp only [runChunks, hc]
      rw [hrest, storeSongs_fst]
      simp only [List.map_cons, listConcat_cons, List.append_assoc]

theorem runChunks_ok_snd_notmem (env : Env) (songsOf : List SongId → Songs) :
    ∀ (chunks : List (List SongId)) (cm cm2 : List (String × String))
      (rm rm2 : Nat → Option String) (q : Nat),
      (∀ c ∈ chunks, env.songsFetch c = .ok (songsOf c)) →
      runChunks env chunks cm rm = .ok (cm2, rm2) →
      q ∉ listConcat (chunks.map (fun c => (songsOf c).songs.map Song.id)) →
      rm2 q = rm q := by
  intro chunks
  induction chunks with
  | nil =>
      intro cm cm2 rm rm2 q _ hrun _
      simp only [runChunks, Except.ok.injEq, Prod.mk.injEq] at hrun
      rw [← hrun.2]
  | cons c rest ih =>
      intro cm cm2 rm rm2 q hall hrun hq
      have hc : env.songsFetch c = .ok (songsOf c) := hall c (by simp)
      simp only [runChunks, hc] at hrun
      simp only [List.map_cons, listConcat_cons, List.mem_append, not_or] at hq
      rw [ih _ _ _ _ q (fun c2 hc2 => hall c2 (List.mem_cons_of_mem _ hc2))
        hrun hq.2]
      exact storeSongs_snd_notmem env _ _ _ q hq.1

/-! Reduction of the pipeline front end. -/

theorem discover_eq_core (env : Env) (cache : CacheState) (link sid : String)
    (resp : NetEasySongId)
    (h1 : env.getSongsId link = .ok sid)
    (h2 : env.playlistFetch sid = .ok resp)
    (h3 : ¬ resp.code = 401) :
    NetEasyDiscover env cache link = discoverCore env cache resp := by
  simp [NetEasyDiscover, h1, h2, h3]

/-! Concrete fixtures used by the witness theorems. -/

/-- Empty, healthy cache. -/
def cacheEmpty : CacheState := ⟨false, fun _ => none⟩

/-- Cache holding only the entry for identifier 101. -/
def cacheA : CacheState :=
  ⟨false, fun k => if k = "net:101" then some "A - X" else none⟩

/-- Cache holding entries for identifiers 101, 102 and 103. -/
def cacheFull : CacheState :=
  ⟨false, fun k =>
    if k = "net:101" then some "A - X"
    else if k = "net:102" then some "B - Y"
    else if k = "net:103" then some "C - Z" else none⟩

/-- Playlist-detail response with tracks 101, 102, 103. -/
def respA : NetEasySongId := ⟨200, ⟨"pl", [⟨101⟩, ⟨102⟩, ⟨103⟩], 3⟩⟩

/-- Song records the healthy remote returns for a requested chunk. -/
def songsOfA : List SongId → Songs := fun c =>
  ⟨c.map (fun t =>
    if t.id = 102 then ⟨"B", 102, [⟨"Y"⟩]⟩
    else if t.id = 103 then ⟨"C", 103, [⟨"Z"⟩]⟩
    else ⟨"D", t.id, []⟩)⟩

/-- Healthy environment over `respA`. -/
def envA : Env :=
  { getSongsId := fun _ => .ok "7"
    playlistFetch := fun _ => .ok respA
    songsFetch := fun c => .ok (songsOfA c)
    standardSongName := fun s => s }

/-- Remote records omitting requested identifier 103. -/
def songsOfB : List SongId → Songs := fun _ => ⟨[⟨"B", 102, [⟨"Y"⟩]⟩]⟩

/-- Environment over `respA` whose song endpoint omits identifier 103. -/
def envB : Env :=
  { getSongsId := fun _ => .ok "7"
    playlistFetch := fun _ => .ok respA
    songsFetch := fun c => .ok (songsOfB c)
    standardSongName := fun s => s }

/-- Playlist-detail response with a single track. -/
def respOne : NetEasySongId := ⟨200, ⟨"p", [⟨1⟩], 1⟩⟩

/-- Environment whose song-metadata endpoint always fails. -/
def envErr : Env :=
  { getSongsId := fun _ => .ok "7"
    playlistFetch := fun _ => .ok respOne
    songsFetch := fun _ => .transportErr "boom"
    standardSongName := fun s => s }

/-- Playlist-detail response carrying body status 401. -/
def resp401 : NetEasySongId := ⟨401, ⟨"p", [], 0⟩⟩

/-- Environment whose playlist endpoint signals access denial in the body. -/
def env401 : Env :=
  { getSongsId := fun _ => .ok "7"
    playlistFetch := fun _ => .ok resp401
    songsFetch := fun _ => .transportErr "x"
    standardSongName := fun s => s }

/-- Playlist-detail response with zero track identifiers. -/
def respEmpty : NetEasySongId := ⟨200, ⟨"p", [], 42⟩⟩

/-- Environment over `respEmpty`. -/
def envEmptyPl : Env :=
  { getSongsId := fun _ => .ok "7"
    playlistFetch := fun _ => .ok respEmpty
    songsFetch := fun _ => .transportErr "x"
    standardSongName := fun s => s }

/-- Concrete three-element miss list. -/
def l3 : List SongId := [⟨1⟩, ⟨2⟩, ⟨3⟩]

/-! Claim theorems. -/

/-- C5: `batchGetSongs` partitions the missing-identifier list into
consecutive, positional chunks of at most 500 identifiers each: their
concatenation equals the input list, their sizes are the positional sizes
determined by the input length alone, each chunk holds at most `chunkSize`
identifiers, the number of chunks is `⌈n / 500⌉`, and for 1200 missing
identifiers exactly 3 chunks of sizes 500, 500 and 200 arise. -/
theorem batchGetSongs_chunking (xs : List SongId) :
    listConcat (mkChunks xs) = xs ∧
    (mkChunks xs).map List.length = chunkSizes xs.length ∧
    (∀ c ∈ mkChunks xs, c.length ≤ chunkSize) ∧
    (mkChunks xs).length = (xs.length + (chunkSize - 1)) / chunkSize ∧
    chunkSizes 1200 = [500, 500, 200] := by
  refine ⟨mkChunks_concat xs, mkChunks_sizes xs, ?_, mkChunks_length xs,
    by decide⟩
  intro c hc
  have hmem : c.length ∈ (mkChunks xs).map List.length :=
    List.mem_map_of_mem List.length hc
  rw [mkChunks_sizes] at hmem
  exact chunkSizesAux_le _ _ _ hmem

/-- Witness for C5: the chunking facts applied to the concrete list `l3`. -/
theorem batchGetSongs_chunking_witness :
    listConcat (mkChunks l3) = l3 ∧ l3.length ≤ chunkSize ∧
      chunkSizes 1200 = [500, 500, 200] :=
  ⟨(batchGetSongs_chunking l3).1,
    (batchGetSongs_chunking l3).2.2.1 l3 (by decide),
    (batchGetSongs_chunking l3).2.2.2.2⟩

/-- C6: when the deserialized playlist response carries body status 401,
`NetEasyDiscover` fails with the dedicated access-denied error — distinct
from the transport and parse errors — and the response is not used: no song
request is issued and no cache write happens. -/
theorem netEasyDiscover_access_denied (env : Env) (cache : CacheState)
    (link sid : String) (resp : NetEasySongId)
    (h1 : env.getSongsId link = .ok sid)
    (h2 : env.playlistFetch sid = .ok resp)
    (h401 : resp.code = 401) :
    (NetEasyDiscover env cache link).result = .error .accessDenied ∧
    (NetEasyDiscover env cache link).songRequests = [] ∧
    (NetEasyDiscover env cache link).cacheWrites = [] ∧
    ∀ m, NErr.accessDenied ≠ NErr.transportErr m ∧
      NErr.accessDenied ≠ NErr.parseErr m := by
  have h : NetEasyDiscover env cache link =
      { result := .error .accessDenied, songRequests := [], cacheWrites := []
        finalMap := emptySyncMap } := by
    simp [NetEasyDiscover, h1, h2, h401]
  rw [h]
  exact ⟨rfl, rfl, rfl, fun m => ⟨by simp, by simp⟩⟩

/-- Witness for C6: a concrete 401 response is rejected as access denied. -/
theorem netEasyDiscover_access_denied_witness :
    env401.getSongsId "L" = .ok "7" ∧
    env401.playlistFetch "7" = .ok resp401 ∧
    resp401.code = 401 ∧
    (NetEasyDiscover env401 cacheEmpty "L").result = .error .accessDenied :=
  ⟨rfl, rfl, rfl,
    (netEasyDiscover_access_denied env401 cacheEmpty "L" "7" resp401 rfl rfl
      rfl).1⟩

/-- C10: for a playlist response with zero track identifiers,
`NetEasyDiscover` succeeds with an empty song slice, the response's name and
declared track count, zero song-metadata requests and no cache write. -/
theorem netEasyDiscover_empty_playlist (env : Env) (cache : CacheState)
    (link sid : String) (resp : NetEasySongId)
    (h1 : env.getSongsId link = .ok sid)
    (h2 : env.playlistFetch sid = .ok resp)
    (h3 : ¬ resp.code = 401)
    (htr : resp.playlist.trackIds = []) :
    (NetEasyDiscover env cache link).result = .ok
      { name := resp.playlist.name, songs := []
        songsCount := resp.playlist.trackCount } ∧
    (NetEasyDiscover env cache link).songRequests = [] ∧
    (NetEasyDiscover env cache link).cacheWrites = [] := by
  rw [discover_eq_core env cache link sid resp h1 h2 h3]
  unfold discoverCore
  rw [htr]
  simp [missKeys, cachePairs, cacheMGet, splitCacheHits, syncMapToSortedSlice]

/-- Witness for C10: a concrete empty playlist resolves to the empty list. -/
theorem netEasyDiscover_empty_playlist_witness :
    envEmptyPl.getSongsId "L" = .ok "7" ∧
    envEmptyPl.playlistFetch "7" = .ok respEmpty ∧
    ¬ respEmpty.code = 401 ∧
    respEmpty.playlist.trackIds = [] ∧
    (NetEasyDiscover envEmptyPl cacheEmpty "L").result =
      .ok ⟨"p", [], 42⟩ :=
  ⟨rfl, rfl, by decide, rfl,
    (netEasyDiscover_empty_playlist envEmptyPl cacheEmpty "L" "7" respEmpty
      rfl rfl (by decide) rfl).1⟩

theorem cachePairs_failed (f : String → Option String) (tids : List SongId) :
    cachePairs ⟨true, f⟩ tids = cachePairs ⟨false, fun _ => none⟩ tids := by
  simp [cachePairs, cacheMGet]

theorem discoverCore_cache_failed (env : Env) (f : String → Option String)
    (resp : NetEasySongId) :
    discoverCore env ⟨true, f⟩ resp =
      discoverCore env ⟨false, fun _ => none⟩ resp := by
  unfold discoverCore hitMap missKeys hitSeeded
  rw [cachePairs_failed f resp.playlist.trackIds]

/-- C2: a failing bulk cache read never surfaces as an error — the whole run
behaves exactly as with an empty, healthy cache (every identifier becomes a
miss and is fetched fresh), and under a failed cache the miss list is the
full track-identifier list.  Bulk cache writes cannot affect the outcome at
all: `cache.MSet`'s return value is discarded by the code, which the
embedding reflects by recording writes as pure observations. -/
theorem netEasyDiscover_cache_outage (env : Env) (f : String → Option String)
    (link : String) :
    NetEasyDiscover env ⟨true, f⟩ link =
      NetEasyDiscover env ⟨false, fun _ => none⟩ link ∧
    ∀ tids : List SongId, missKeys ⟨true, f⟩ tids = tids := by
  constructor
  · cases hg : env.getSongsId link with
    | error e => simp [NetEasyDiscover, hg]
    | ok sid =>
        cases hp : env.playlistFetch sid with
        | transportErr e => simp [NetEasyDiscover, hg, hp]
        | parseErr e => simp [NetEasyDiscover, hg, hp]
        | ok resp =>
            by_cases h401 : resp.code = 401
            · simp [NetEasyDiscover, hg, hp, h401]
            · rw [discover_eq_core env ⟨true, f⟩ link sid resp hg hp h401,
                discover_eq_core env ⟨false, fun _ => none⟩ link sid resp hg
                  hp h401]
              exact discoverCore_cache_failed env f resp
  · intro tids
    rw [missKeys_eq_filter]
    apply List.filter_eq_self.mpr
    intro t _
    simp [mgetVal]

/-- C3: if any one chunk task fails (transport or deserialization),
`batchGetSongs` returns an error, `NetEasyDiscover` surfaces that very error
to the caller, and no entry from any chunk is written to the cache: the
cache-write step is never reached on the error path. -/
theorem netEasyDiscover_fail_fast (env : Env) (cache : CacheState)
    (link sid : String) (resp : NetEasySongId)
    (h1 : env.getSongsId link = .ok sid)
    (h2 : env.playlistFetch sid = .ok resp)
    (h3 : ¬ resp.code = 401)
    (hfail : ∃ c ∈ mkChunks (missKeys cache resp.playlist.trackIds),
        (env.songsFetch c).isOk = false) :
    ∃ e, batchGetSongs env (missKeys cache resp.playlist.trackIds)
        (hitMap cache resp.playlist.trackIds) = .error e ∧
      (NetEasyDiscover env cache link).result = .error e ∧
      (NetEasyDiscover env cache link).cacheWrites = [] := by
  obtain ⟨e, he⟩ := runChunks_error env
    (mkChunks (missKeys cache resp.playlist.trackIds)) []
    (hitMap cache resp.playlist.trackIds) hfail
  have hb : batchGetSongs env (missKeys cache resp.playlist.trackIds)
      (hitMap cache resp.playlist.trackIds) = .error e := he
  have hm : ¬ (missKeys cache resp.playlist.trackIds).length = 0 := by
    intro h0
    rw [List.length_eq_zero] at h0
    rw [h0] at hfail
    simp [mkChunks, mkChunksAux] at hfail
  rw [discover_eq_core env cache link sid resp h1 h2 h3]
  unfold discoverCore
  rw [if_neg hm, hb]
  exact ⟨e, rfl, rfl, rfl⟩

/-- Witness for C3: a failing chunk transport aborts a concrete run with no
cache write. -/
theorem netEasyDiscover_fail_fast_witness :
    envErr.getSongsId "L" = .ok "7" ∧
    envErr.playlistFetch "7" = .ok respOne ∧
    ¬ respOne.code = 401 ∧
    (∃ c ∈ mkChunks (missKeys cacheEmpty respOne.playlist.trackIds),
      (envErr.songsFetch c).isOk = false) ∧
    ∃ e, batchGetSongs envErr (missKeys cacheEmpty respOne.playlist.trackIds)
        (hitMap cacheEmpty respOne.playlist.trackIds) = .error e ∧
      (NetEasyDiscover envErr cacheEmpty "L").result = .error e ∧
      (NetEasyDiscover envErr cacheEmpty "L").cacheWrites = [] :=
  ⟨rfl, rfl, by decide, by decide,
    netEasyDiscover_fail_fast envErr cacheEmpty "L" "7" respOne rfl rfl
      (by decide) (by decide)⟩

/-- C4: if the healthy cache holds a value for every derived key of the
playlist, `NetEasyDiscover` issues zero remote song-metadata requests and
returns the result assembled entirely from the cached values, in original
track order. -/
theorem netEasyDiscover_all_hits (env : Env) (cache : CacheState)
    (link sid : String) (resp : NetEasySongId)
    (h1 : env.getSongsId link = .ok sid)
    (h2 : env.playlistFetch sid = .ok resp)
    (h3 : ¬ resp.code = 401)
    (hnf : cache.failed = false)
    (hhits : ∀ t ∈ resp.playlist.trackIds,
        (cache.store (netEasyRedisKey t.id)).isSome) :
    (NetEasyDiscover env cache link).songRequests = [] ∧
    (NetEasyDiscover env cache link).result = .ok
      { name := resp.playlist.name
        songs := resp.playlist.trackIds.filterMap
          (fun t => cache.store (netEasyRedisKey t.id))
        songsCount := resp.playlist.trackCount } := by
  have hmg : ∀ t ∈ resp.playlist.trackIds, (mgetVal cache t.id).isSome := by
    intro t ht
    simpa [mgetVal, hnf] using hhits t ht
  have hm : (missKeys cache resp.playlist.trackIds).length = 0 := by
    rw [missKeys_eq_filter, List.length_eq_zero, List.filter_eq_nil_iff]
    intro t ht
    have hs := hmg t ht
    cases hv : mgetVal cache t.id with
    | none => rw [hv] at hs; simp at hs
    | some v => simp [hv]
  have hsongs : syncMapToSortedSlice resp.playlist.trackIds
      (hitMap cache resp.playlist.trackIds) =
      resp.playlist.trackIds.filterMap
        (fun t => cache.store (netEasyRedisKey t.id)) := by
    unfold syncMapToSortedSlice
    apply List.filterMap_congr
    intro t ht
    rw [hitMap_mem cache _ t ht (hmg t ht)]
    simp [mgetVal, hnf]
  rw [discover_eq_core env cache link sid resp h1 h2 h3]
  unfold discoverCore
  rw [if_pos hm, hsongs]
  exact ⟨rfl, rfl⟩

/-- Witness for C4: with all three identifiers cached, the concrete run
issues no song request and returns the cached values in order. -/
theorem netEasyDiscover_all_hits_witness :
    envA.getSongsId "L" = .ok "7" ∧
    envA.playlistFetch "7" = .ok respA ∧
    ¬ respA.code = 401 ∧
    cacheFull.failed = false ∧
    (∀ t ∈ respA.playlist.trackIds,
      (cacheFull.store (netEasyRedisKey t.id)).isSome) ∧
    (NetEasyDiscover envA cacheFull "L").songRequests = [] ∧
    (NetEasyDiscover envA cacheFull "L").result = .ok
      { name := respA.playlist.name
        songs := respA.playlist.trackIds.filterMap
          (fun t => cacheFull.store (netEasyRedisKey t.id))
        songsCount := respA.playlist.trackCount } :=
  ⟨rfl, rfl, by decide, rfl, by decide,
    (netEasyDiscover_all_hits envA cacheFull "L" "7" respA rfl rfl
      (by decide) rfl (by decide)).1,
    (netEasyDiscover_all_hits envA cacheFull "L" "7" respA rfl rfl
      (by decide) rfl (by decide)).2⟩

/-- C7: when every chunk fetch succeeds, the single cache write of the run
consists, chunk by chunk and record by record, of exactly the entries
`(derived key of the record's identifier, normalize(name) ++ " - " ++
artists joined by " / ")` — the display string computed by the code for
every song record returned by the remote metadata endpoint. -/
theorem batchGetSongs_display_strings (env : Env) (cache : CacheState)
    (link sid : String) (resp : NetEasySongId)
    (songsOf : List SongId → Songs)
    (h1 : env.getSongsId link = .ok sid)
    (h2 : env.playlistFetch sid = .ok resp)
    (h3 : ¬ resp.code = 401)
    (hmiss : ¬ (missKeys cache resp.playlist.trackIds).length = 0)
    (hfetch : ∀ c ∈ mkChunks (missKeys cache resp.playlist.trackIds),
        env.songsFetch c = .ok (songsOf c)) :
    (NetEasyDiscover env cache link).cacheWrites =
      [listConcat ((mkChunks (missKeys cache resp.playlist.trackIds)).map
        (fun c => (songsOf c).songs.map
          (fun s => (netEasyRedisKey s.id, displayString env s))))] := by
  obtain ⟨rm2, hrc⟩ := runChunks_ok_fst env songsOf
    (mkChunks (missKeys cache resp.playlist.trackIds)) []
    (hitMap cache resp.playlist.trackIds) hfetch
  rw [List.nil_append] at hrc
  have hb : batchGetSongs env (missKeys cache resp.playlist.trackIds)
      (hitMap cache resp.playlist.trackIds) = .ok
        (listConcat ((mkChunks (missKeys cache resp.playlist.trackIds)).map
          (fun c => (songsOf c).songs.map
            (fun s => (netEasyRedisKey s.id, displayString env s)))),
          rm2) := hrc
  rw [discover_eq_core env cache link sid resp h1 h2 h3]
  unfold discoverCore
  rw [if_neg hmiss, hb]

/-- Witness for C7: a fully-missing concrete playlist writes back exactly
the display strings built from the returned records. -/
theorem batchGetSongs_display_strings_witness :
    envA.getSongsId "L" = .ok "7" ∧
    envA.playlistFetch "7" = .ok respA ∧
    ¬ respA.code = 401 ∧
    ¬ (missKeys cacheEmpty respA.playlist.trackIds).length = 0 ∧
    (∀ c ∈ mkChunks (missKeys cacheEmpty respA.playlist.trackIds),
      envA.songsFetch c = .ok (songsOfA c)) ∧
    (NetEasyDiscover envA cacheEmpty "L").cacheWrites =
      [listConcat ((mkChunks (missKeys cacheEmpty respA.playlist.trackIds)).map
        (fun c => (songsOfA c).songs.map
          (fun s => (netEasyRedisKey s.id, displayString envA s))))] :=
  ⟨rfl, rfl, by decide, by decide, by decide,
    batchGetSongs_display_strings envA cacheEmpty "L" "7" respA songsOfA
      rfl rfl (by decide) (by decide) (by decide)⟩

/-- C8: within one resolution call over a playlist with pairwise distinct
identifiers, every identifier appearing in some remote song-metadata request
was a cache miss (never a hit), and no identifier appears in more than one
request: the concatenation of all request payloads has no duplicates. -/
theorem netEasyDiscover_no_refetch (env : Env) (cache : CacheState)
    (link sid : String) (resp : NetEasySongId)
    (h1 : env.getSongsId link = .ok sid)
    (h2 : env.playlistFetch sid = .ok resp)
    (h3 : ¬ resp.code = 401)
    (hnodup : (resp.playlist.trackIds.map SongId.id).Nodup) :
    (∀ q ∈ listConcat (NetEasyDiscover env cache link).songRequests,
        mgetVal cache q = none) ∧
    (listConcat (NetEasyDiscover env cache link).songRequests).Nodup := by
  have main :
      (∀ q ∈ listConcat ((mkChunks (missKeys cache resp.playlist.trackIds)).map
          (fun c => c.map SongId.id)), mgetVal cache q = none) ∧
      (listConcat ((mkChunks (missKeys cache resp.playlist.trackIds)).map
          (fun c => c.map SongId.id))).Nodup := by
    have hc : listConcat ((mkChunks (missKeys cache resp.playlist.trackIds)).map
        (fun c => c.map SongId.id)) =
        (missKeys cache resp.playlist.trackIds).map SongId.id := by
      rw [listConcat_map_map SongId.id, mkChunks_concat]
    rw [hc, missKeys_eq_filter]
    constructor
    · intro q hq
      obtain ⟨t, htf, hid⟩ := List.mem_map.mp hq
      obtain ⟨_, hnone⟩ := List.mem_filter.mp htf
      rw [← hid]
      exact Option.isNone_iff_eq_none.mp hnone
    · exact List.Nodup.sublist
        ((List.filter_sublist resp.playlist.trackIds).map SongId.id) hnodup
  rw [discover_eq_core env cache link sid resp h1 h2 h3]
  unfold discoverCore
  by_cases hm : (missKeys cache resp.playlist.trackIds).length = 0
  · rw [if_pos hm]
    exact ⟨fun q hq => absurd hq (by simp [listConcat_nil]),
      by rw [listConcat_nil]; exact List.nodup_nil⟩
  · rw [if_neg hm]
    cases hb : batchGetSongs env (missKeys cache resp.playlist.trackIds)
        (hitMap cache resp.playlist.trackIds) with
    | error e => exact main
    | ok p =>
        obtain ⟨cm2, rm2⟩ := p
        exact main

/-- Witness for C8: in the concrete mixed hit/miss run the single request
holds exactly the missed identifiers 102 and 103, each once. -/
theorem netEasyDiscover_no_refetch_witness :
    envA.getSongsId "L" = .ok "7" ∧
    envA.playlistFetch "7" = .ok respA ∧
    ¬ respA.code = 401 ∧
    (respA.playlist.trackIds.map SongId.id).Nodup ∧
    (∀ q ∈ listConcat (NetEasyDiscover envA cacheA "L").songRequests,
      mgetVal cacheA q = none) ∧
    (listConcat (NetEasyDiscover envA cacheA "L").songRequests).Nodup :=
  ⟨rfl, rfl, by decide, by decide,
    (netEasyDiscover_no_refetch envA cacheA "L" "7" respA rfl rfl (by decide)
      (by decide)).1,
    (netEasyDiscover_no_refetch envA cacheA "L" "7" respA rfl rfl (by decide)
      (by decide)).2⟩

/-- C9: when every chunk request succeeds, `NetEasyDiscover` succeeds even if
the remote response omits requested identifiers; the final slice is the
original-order walk of the final map, and an identifier that was no cache
hit and appears in no returned record is absent from that map — hence
silently absent from the final slice, leaving all other entries intact. -/
theorem netEasyDiscover_missing_song_omission (env : Env) (cache : CacheState)
    (link sid : String) (resp : NetEasySongId)
    (songsOf : List SongId → Songs)
    (h1 : env.getSongsId link = .ok sid)
    (h2 : env.playlistFetch sid = .ok resp)
    (h3 : ¬ resp.code = 401)
    (hfetch : ∀ c ∈ mkChunks (missKeys cache resp.playlist.trackIds),
        env.songsFetch c = .ok (songsOf c)) :
    (∃ sl, (NetEasyDiscover env cache link).result = .ok sl ∧
      sl.songs = resp.playlist.trackIds.filterMap
        (fun t => (NetEasyDiscover env cache link).finalMap t.id)) ∧
    (∀ q, mgetVal cache q = none →
      q ∉ listConcat ((mkChunks (missKeys cache resp.playlist.trackIds)).map
        (fun c => (songsOf c).songs.map Song.id)) →
      (NetEasyDiscover env cache link).finalMap q = none) := by
  rw [discover_eq_core env cache link sid resp h1 h2 h3]
  unfold discoverCore
  by_cases hm : (missKeys cache resp.playlist.trackIds).length = 0
  · rw [if_pos hm]
    constructor
    · exact ⟨_, rfl, rfl⟩
    · intro q hq _
      exact hitMap_none cache _ q hq
  · rw [if_neg hm]
    obtain ⟨rm2, hrc⟩ := runChunks_ok_fst env songsOf
      (mkChunks (missKeys cache resp.playlist.trackIds)) []
      (hitMap cache resp.playlist.trackIds) hfetch
    have hb : batchGetSongs env (missKeys cache resp.playlist.trackIds)
        (hitMap cache resp.playlist.trackIds) = .ok
          ([] ++ listConcat
            ((mkChunks (missKeys cache resp.playlist.trackIds)).map
              (fun c => (songsOf c).songs.map
                (fun s => (netEasyRedisKey s.id, displayString env s)))),
            rm2) := hrc
    rw [hb]
    constructor
    · exact ⟨_, rfl, rfl⟩
    · intro q hq hnot
      have hpres : rm2 q = hitMap cache resp.playlist.trackIds q :=
        runChunks_ok_snd_notmem env songsOf
          (mkChunks (missKeys cache resp.playlist.trackIds)) [] _
          (hitMap cache resp.playlist.trackIds) rm2 q hfetch hrc hnot
      have hnone := hitMap_none cache resp.playlist.trackIds q hq
      show (if hitSeeded cache resp.playlist.trackIds then rm2
        else hitMap cache resp.playlist.trackIds) q = none
      cases hs : hitSeeded cache resp.playlist.trackIds
      · simpa using hnone
      · simpa [hpres] using hnone

/-- Witness for C9: the concrete remote omits requested identifier 103; the
run still succeeds and 103 is absent from the final map and slice. -/
theorem netEasyDiscover_missing_song_omission_witness :
    envB.getSongsId "L" = .ok "7" ∧
    envB.playlistFetch "7" = .ok respA ∧
    ¬ respA.code = 401 ∧
    (∀ c ∈ mkChunks (missKeys cacheA respA.playlist.trackIds),
      envB.songsFetch c = .ok (songsOfB c)) ∧
    ((∃ sl, (NetEasyDiscover envB cacheA "L").result = .ok sl ∧
      sl.songs = respA.playlist.trackIds.filterMap
        (fun t => (NetEasyDiscover envB cacheA "L").finalMap t.id)) ∧
    (∀ q, mgetVal cacheA q = none →
      q ∉ listConcat ((mkChunks (missKeys cacheA respA.playlist.trackIds)).map
        (fun c => (songsOfB c).songs.map Song.id)) →
      (NetEasyDiscover envB cacheA "L").finalMap q = none)) :=
  ⟨rfl, rfl, by decide, by decide,
    netEasyDiscover_missing_song_omission envB cacheA "L" "7" respA songsOfB
      rfl rfl (by decide) (by decide)⟩

/-- C1, failing input: a playlist whose three identifiers all miss an empty
cache while every remote chunk fetch succeeds.  Because `batchGetSongs`
receives the caller's `resultMap` as a by-value `sync.Map` (line 102) and
returns only `missKeyCacheMap`, the never-seeded caller map shares nothing
with the callee's copy, so the goroutines' stores are lost and line 96
materializes an empty song slice — even though all three songs were fetched
and are still written back to the cache.  The claim (with spec sections 4.1
step 7, 4.2 step d, 5 and 8) requires the resolved slice
`["D - ", "B - Y", "C - Z"]` in original track order instead. -/
theorem netEasyDiscover_zero_hit_loss :
    (NetEasyDiscover envA cacheEmpty "L").result =
      .ok { name := "pl", songs := [], songsCount := 3 } ∧
    (NetEasyDiscover envA cacheEmpty "L").cacheWrites =
      [[("net:101", "D - "), ("net:102", "B - Y"), ("net:103", "C - Z")]] :=
  ⟨rfl, rfl⟩

end GoMusic
